import Mathlib

/-!
Verification development for the financial-advisor training-and-evaluation
engine.  The two implementation files are `src/lib/ml.ts` (preprocessing,
model dispatch, metrics) and `src/lib/ai.ts` (heuristic advisor).

Numbers: the JavaScript source computes with IEEE doubles.  We idealise
finite values as exact rationals and model the IEEE special values NaN and
±Infinity explicitly, since the degenerate divisions (`0/0`, `x/0`) and the
NaN-propagation behaviour of `Math.max`/`Math.min` are exactly what several
spec sentences are about.  `undefined` appearing as an arithmetic operand
(out-of-range array reads) behaves as NaN in JS and is modelled as NaN.
`Math.sqrt` is modelled by `ratSqrt`, which agrees with the real square
root on rationals that are perfect squares; every theorem below evaluates
it only at such values (0, 4, NaN, ...).  IEEE negative zero is not
modelled; no code path distinguishes it.
-/

/-- A JavaScript number: NaN, +Infinity, -Infinity, or a finite value
(idealised as an exact rational). -/
inductive JNum where
  | nan : JNum
  | pinf : JNum
  | ninf : JNum
  | fin : ℚ → JNum
deriving DecidableEq, Repr

namespace JNum

/-- JS unary negation. -/
def jneg : JNum → JNum
  | nan => nan
  | pinf => ninf
  | ninf => pinf
  | fin a => fin (-a)

/-- JS addition. -/
def jadd : JNum → JNum → JNum
  | nan, _ => nan
  | _, nan => nan
  | pinf, ninf => nan
  | ninf, pinf => nan
  | pinf, _ => pinf
  | _, pinf => pinf
  | ninf, _ => ninf
  | _, ninf => ninf
  | fin a, fin b => fin (a + b)

/-- JS subtraction, `a - b = a + (-b)`. -/
def jsub (a b : JNum) : JNum := jadd a (jneg b)

/-- JS multiplication. -/
def jmul : JNum → JNum → JNum
  | nan, _ => nan
  | _, nan => nan
  | pinf, pinf => pinf
  | pinf, ninf => ninf
  | ninf, pinf => ninf
  | ninf, ninf => pinf
  | pinf, fin b => if b = 0 then nan else if 0 < b then pinf else ninf
  | ninf, fin b => if b = 0 then nan else if 0 < b then ninf else pinf
  | fin a, pinf => if a = 0 then nan else if 0 < a then pinf else ninf
  | fin a, ninf => if a = 0 then nan else if 0 < a then ninf else pinf
  | fin a, fin b => fin (a * b)

/-- JS division (negative zero not modelled: a zero divisor is treated as
positive zero, which is how every zero divisor in this program arises). -/
def jdiv : JNum → JNum → JNum
  | nan, _ => nan
  | _, nan => nan
  | pinf, pinf => nan
  | pinf, ninf => nan
  | ninf, pinf => nan
  | ninf, ninf => nan
  | pinf, fin b => if 0 ≤ b then pinf else ninf
  | ninf, fin b => if 0 ≤ b then ninf else pinf
  | fin _, pinf => fin 0
  | fin _, ninf => fin 0
  | fin a, fin b =>
      if b = 0 then (if a = 0 then nan else if 0 < a then pinf else ninf)
      else fin (a / b)

/-- `Math.pow(x, 2)`. -/
def jpow2 (a : JNum) : JNum := jmul a a

/-- `Math.abs`. -/
def jabs : JNum → JNum
  | nan => nan
  | pinf => pinf
  | ninf => pinf
  | fin a => fin |a|

/-- Rational square root: exact on rationals that are squares of rationals
(in lowest terms the numerator and denominator are then perfect squares);
used to model `Math.sqrt`, which no theorem below evaluates at a
non-square. -/
def ratSqrt (q : ℚ) : ℚ := ((Nat.sqrt q.num.toNat : ℤ) : ℚ) / (Nat.sqrt q.den : ℚ)

/-- `Math.sqrt`. -/
def jsqrt : JNum → JNum
  | nan => nan
  | pinf => pinf
  | ninf => nan
  | fin q => if q < 0 then nan else fin (ratSqrt q)

/-- The JS `<` comparison: false whenever either operand is NaN. -/
def jlt : JNum → JNum → Bool
  | nan, _ => false
  | _, nan => false
  | ninf, ninf => false
  | ninf, _ => true
  | _, ninf => false
  | pinf, _ => false
  | _, pinf => true
  | fin a, fin b => a < b

/-- The JS `>` comparison. -/
def jgt (a b : JNum) : Bool := jlt b a

/-- `Math.max` on two arguments: NaN if either argument is NaN. -/
def jmax (a b : JNum) : JNum :=
  if a = nan ∨ b = nan then nan else if jlt a b then b else a

/-- `Math.min` on two arguments: NaN if either argument is NaN. -/
def jmin (a b : JNum) : JNum :=
  if a = nan ∨ b = nan then nan else if jlt a b then a else b

/-- `arr.reduce((sum, v) => sum + v, 0)` over JS numbers. -/
def jsum (l : List JNum) : JNum := l.foldl jadd (fin 0)

end JNum

open JNum

/-- JS array read `l[i]` used as an arithmetic operand: in range it is the
element, out of range it is `undefined`, which behaves as NaN. -/
def jgetQ (l : List ℚ) (i : ℕ) : JNum :=
  if h : i < l.length then .fin (l.get ⟨i, h⟩) else .nan

/-- JS array read on a list of JS numbers (out of range: `undefined`,
behaving as NaN). -/
def jget (l : List JNum) (i : ℕ) : JNum := l.getD i .nan

-- ## Basic evaluation lemmas for the JS-number model

theorem jadd_fin (a b : ℚ) : jadd (.fin a) (.fin b) = .fin (a + b) := rfl

theorem jsub_fin (a b : ℚ) : jsub (.fin a) (.fin b) = .fin (a - b) := by
  simp [jsub, jneg, jadd, sub_eq_add_neg]

theorem jmul_fin (a b : ℚ) : jmul (.fin a) (.fin b) = .fin (a * b) := rfl

theorem jpow2_fin (a : ℚ) : jpow2 (.fin a) = .fin (a ^ 2) := by
  simp [jpow2, jmul_fin, sq]

theorem jdiv_fin_of_ne (a b : ℚ) (hb : b ≠ 0) :
    jdiv (.fin a) (.fin b) = .fin (a / b) := by
  simp [jdiv, hb]

theorem jdiv_zero_zero : jdiv (.fin 0) (.fin 0) = .nan := rfl

theorem jdiv_fin_zero_of_pos (a : ℚ) (ha : 0 < a) :
    jdiv (.fin a) (.fin 0) = .pinf := by
  simp [jdiv, ha.ne', ha]

theorem jsum_nil : jsum [] = .fin 0 := rfl

/-- Folding JS addition over finite values is exact rational summation. -/
theorem foldl_jadd_fin (l : List ℚ) (a : ℚ) :
    List.foldl jadd (.fin a) (l.map .fin) = .fin (a + l.sum) := by
  induction l generalizing a with
  | nil => simp
  | cons b t ih => simp [jadd_fin, ih, add_assoc]

theorem jsum_map_fin (l : List ℚ) : jsum (l.map .fin) = .fin l.sum := by
  simp [jsum, foldl_jadd_fin]

/-- Once the accumulator is NaN, JS summation stays NaN. -/
theorem foldl_jadd_nan (l : List JNum) : List.foldl jadd .nan l = .nan := by
  induction l with
  | nil => rfl
  | cons b t ih => simpa [jadd] using ih

theorem jadd_nan_right (a : JNum) : jadd a .nan = .nan := by
  cases a <;> rfl

/-- A NaN element poisons the whole JS sum. -/
theorem foldl_jadd_eq_nan_of_mem (l : List JNum) (acc : JNum) (h : .nan ∈ l) :
    List.foldl jadd acc l = .nan := by
  induction l generalizing acc with
  | nil => simp at h
  | cons b t ih =>
      rcases List.mem_cons.mp h with hb | ht
      · subst hb
        simp [jadd_nan_right, foldl_jadd_nan]
      · exact ih _ ht

theorem jsum_eq_nan_of_mem (l : List JNum) (h : .nan ∈ l) : jsum l = .nan := by
  rw [jsum]; exact foldl_jadd_eq_nan_of_mem l _ h

/-!
## Embedding of `src/lib/ml.ts`

A dataset row maps a column name to its raw cell.  Only the numeric view
of a cell matters to the engine: `parseFloat` hands back either a number
or NaN, and both files coerce the NaN case to `0` (`isNaN(val) ? 0 : val`
in `ml.ts`, `parseFloat(row[f]) || 0` in `ai.ts`, which agrees because a
parsed `0` is mapped to `0` either way).  A row is therefore modelled as
a partial map from column names to the parsed rational value, `none`
standing for a cell that fails numeric parsing.
-/

/-- A record of the dataset: column name to parsed numeric value, `none`
when `parseFloat` yields NaN. -/
def Row : Type := String → Option ℚ

/-- The coercion both files apply to a cell: parse failures become `0`. -/
def cellValue (row : Row) (f : String) : ℚ := (row f).getD 0

/-- `data.map(row => features.map(f => ...))` of `trainModel` (ml.ts line 38). -/
def extractX (data : List Row) (features : List String) : List (List ℚ) :=
  data.map fun row => features.map (cellValue row)

/-- `data.map(row => ...)` for the target column (ml.ts line 42). -/
def extractY (data : List Row) (target : String) : List ℚ :=
  data.map fun row => cellValue row target

/-- The `mean` helper (ml.ts line 185); only applied to non-empty lists. -/
def qmean (xs : List ℚ) : ℚ := xs.sum / xs.length

/-- The variance computed inside the `std` helper (ml.ts line 191). -/
def qvariance (xs : List ℚ) : ℚ := ((xs.map fun v => (v - qmean xs) ^ 2).sum) / xs.length

/-- The `std` helper (ml.ts line 189). -/
def qstd (xs : List ℚ) : ℚ := ratSqrt (qvariance xs)

/-- Column `i` of the feature matrix, `X.map(row => row[col])`. -/
def column (X : List (List ℚ)) (i : ℕ) : List ℚ := X.map fun r => r.getD i 0

/-- `X_mean = X[0].map((_, col) => mean(X.map(row => row[col])))` (line 48). -/
def xMeans (X : List (List ℚ)) : List ℚ :=
  (List.range (X.headD []).length).map fun i => qmean (column X i)

/-- `X_std = X[0].map((_, col) => std(X.map(row => row[col])))` (line 49). -/
def xStds (X : List (List ℚ)) : List ℚ :=
  (List.range (X.headD []).length).map fun i => qstd (column X i)

/-- The JS guard `d || 1` applied to a finite standard deviation: `0` is
falsy and falls back to `1`. -/
def jsOr1 (q : ℚ) : ℚ := if q = 0 then 1 else q

/-- `X_normalized` (lines 50-52): per-column z-score with the `|| 1`
divisor guard. -/
def normalizeX (X : List (List ℚ)) : List (List ℚ) :=
  X.map fun row =>
    (List.range row.length).map fun i =>
      (row.getD i 0 - (xMeans X).getD i 0) / jsOr1 ((xStds X).getD i 0)

/-- `splitIndex = Math.floor(data.length * splitRatio)` (line 60), as used
by the two non-negative `slice` calls. -/
def splitIdxOf (n : ℕ) (ratio : ℚ) : ℕ := (⌊(n : ℚ) * ratio⌋).toNat

/-- `metrics` record of `calculateMetrics`. -/
structure ModelMetrics where
  mse : JNum
  rmse : JNum
  r2 : JNum
  mae : JNum
deriving DecidableEq, Repr

/-- The returned `TrainingResult` (ml.ts lines 12-17). -/
structure TrainingResult where
  modelType : String
  metrics : ModelMetrics
  predictions : List JNum
  actualValues : List ℚ
deriving DecidableEq, Repr

/-- The only failure the engine can actually produce: a thrown JS
`TypeError` (no error classes are defined anywhere in the two source
files). -/
inductive JsErr where
  | typeError : JsErr
deriving DecidableEq, Repr

/-- `calculateMetrics` (ml.ts lines 164-183).  The indexed reduces over
`actual` are rendered as sums over `List.range actual.length`;
`predicted[i]` past the end of `predicted` is `undefined`, hence NaN as an
operand.  `ssResidual` (line 176) recomputes exactly the expression of the
MSE numerator (line 168), so it is shared here. -/
def calculateMetrics (actual : List ℚ) (predicted : List JNum) : ModelMetrics :=
  let n : ℕ := actual.length
  let sqErrSum : JNum :=
    jsum ((List.range n).map fun i => jpow2 (jsub (.fin (actual.getD i 0)) (jget predicted i)))
  let mse := jdiv sqErrSum (.fin n)
  let rmse := jsqrt mse
  let meanA := jdiv (.fin actual.sum) (.fin n)
  let ssTotal := jsum (actual.map fun v => jpow2 (jsub (.fin v) meanA))
  let r2 := jmax (.fin 0) (jmin (.fin 1) (jsub (.fin 1) (jdiv sqErrSum ssTotal)))
  let mae := jdiv
    (jsum ((List.range n).map fun i => jabs (jsub (.fin (actual.getD i 0)) (jget predicted i))))
    (.fin n)
  { mse := mse, rmse := rmse, r2 := r2, mae := mae }

/-- `x[0]` of a feature vector used as a number: `undefined` (hence NaN as
an operand) when the vector is empty. -/
def jheadQ : List ℚ → JNum
  | [] => .nan
  | a :: _ => .fin a

/-- Modelled from the spec: the fitted state of the external
`ml-regression-simple-linear` dependency (not part of this repository),
"single-feature ordinary least squares": slope `Σ(xᵢ-x̄)(yᵢ-ȳ)/Σ(xᵢ-x̄)²`
and intercept `ȳ - slope·x̄`, in JS arithmetic. -/
structure SLR where
  slope : JNum
  intercept : JNum
deriving DecidableEq, Repr

/-- Modelled from the spec: `new SimpleLinearRegression(x, y)` fits
ordinary least squares. -/
def slrFit (xs ys : List JNum) : SLR :=
  let n : JNum := .fin xs.length
  let mx := jdiv (jsum xs) n
  let my := jdiv (jsum ys) n
  let sxy := jsum ((List.range xs.length).map fun i =>
    jmul (jsub (jget xs i) mx) (jsub (jget ys i) my))
  let sxx := jsum (xs.map fun v => jpow2 (jsub v mx))
  let slope := jdiv sxy sxx
  { slope := slope, intercept := jsub my (jmul slope mx) }

/-- Modelled from the spec: `regression.predict(x) = slope * x + intercept`. -/
def slrPredict (m : SLR) (x : JNum) : JNum := jadd (jmul m.slope x) m.intercept

/-- Denormalization `pred * y_std + y_mean` applied to every backend's raw
predictions (ml.ts lines 71, 88, 142). -/
def denorm (yStd yMean : ℚ) (p : JNum) : JNum := jadd (jmul p (.fin yStd)) (.fin yMean)

/-- `y_mean` (ml.ts line 55). -/
def yMeanOf (data : List Row) (target : String) : ℚ := qmean (extractY data target)

/-- `y_std` (ml.ts line 56). -/
def yStdOf (data : List Row) (target : String) : ℚ := qstd (extractY data target)

/-- `y_normalized` (ml.ts line 57). -/
def ynOf (data : List Row) (target : String) : List ℚ :=
  (extractY data target).map fun v => (v - yMeanOf data target) / jsOr1 (yStdOf data target)

/-- `y_test = y.slice(splitIndex)` (ml.ts line 64): the test rows' target
values in original, unnormalized units. -/
def testActuals (data : List Row) (target : String) (ratio : ℚ) : List ℚ :=
  (extractY data target).drop (splitIdxOf data.length ratio)

/-- The `switch (modelType)` dispatch (ml.ts lines 66-151) producing the
denormalized predictions.  The `random-forest` and `neural-network` arms
call external libraries (`ml-random-forest`, `@tensorflow/tfjs`), which
are not part of this repository; they are abstracted as the function
parameters `rf` and `nn` from (train features, train targets, test
features) to raw normalized predictions.  A tag matching no case leaves
`predictions` at its initializer `[]`. -/
def predictionsOf
    (rf nn : List (List ℚ) → List ℚ → List (List ℚ) → List JNum)
    (data : List Row) (target : String) (features : List String)
    (modelType : String) (ratio : ℚ) : List JNum :=
  let Xn := normalizeX (extractX data features)
  let i := splitIdxOf data.length ratio
  let yStd := yStdOf data target
  let yMean := yMeanOf data target
  if modelType = "linear-regression" then
    let reg := slrFit ((Xn.take i).map jheadQ) (((ynOf data target).take i).map .fin)
    (Xn.drop i).map fun x => denorm yStd yMean (slrPredict reg (jheadQ x))
  else if modelType = "random-forest" then
    (rf (Xn.take i) ((ynOf data target).take i) (Xn.drop i)).map (denorm yStd yMean)
  else if modelType = "neural-network" then
    (nn (Xn.take i) ((ynOf data target).take i) (Xn.drop i)).map (denorm yStd yMean)
  else []

/-- `trainModel` (ml.ts lines 29-162).  The function performs no input
validation: with `data = []`, line 48 evaluates `X[0].map(...)` where
`X[0]` is `undefined`, so the call throws a `TypeError`.  Otherwise it
always resolves with a `TrainingResult`. -/
def trainModel
    (rf nn : List (List ℚ) → List ℚ → List (List ℚ) → List JNum)
    (data : List Row) (target : String) (features : List String)
    (modelType : String) (ratio : ℚ) : Except JsErr TrainingResult :=
  match data with
  | [] => .error .typeError
  | _ :: _ =>
      .ok { modelType := modelType
            metrics := calculateMetrics (testActuals data target ratio)
              (predictionsOf rf nn data target features modelType ratio)
            predictions := predictionsOf rf nn data target features modelType ratio
            actualValues := testActuals data target ratio }

/-!
## Embedding of `src/lib/ai.ts`

The advisor extracts the same numeric matrix (with the `|| 0` coercion)
and computes correlation statistics.  The TensorFlow tensors are pure
value carriers here (`X.array()` hands the numbers straight back), except
for the matrix products in `checkNonLinearity`, which are modelled
directly.  `tf.tensor2d` on an empty dataset throws, which is the only
failure path of `getModelSuggestions`.
-/

/-- `pearsonCorrelation` (ai.ts lines 177-186).  The indexed reduce for
`covXY` runs over the indices of `x`; when `y` is shorter, `y[i]` is
`undefined` and the product term is NaN.  There is no zero-variance
guard: a constant column yields `0 / Math.sqrt(0) = 0/0 = NaN`. -/
def pearsonCorrelation (x y : List ℚ) : JNum :=
  let meanX := jdiv (.fin x.sum) (.fin x.length)
  let meanY := jdiv (.fin y.sum) (.fin y.length)
  let covXY := jsum ((List.range x.length).map fun i =>
    jmul (jsub (.fin (x.getD i 0)) meanX) (jsub (jgetQ y i) meanY))
  let varX := jsum (x.map fun xi => jpow2 (jsub (.fin xi) meanX))
  let varY := jsum (y.map fun yi => jpow2 (jsub (.fin yi) meanY))
  jdiv covXY (jsqrt (jmul varX varY))

/-- The pair returned by `calculateCorrelations` (ai.ts lines 128-131). -/
structure CorrStats where
  mean : JNum
  maxc : JNum
deriving DecidableEq, Repr

/-- The list of per-feature correlations of `calculateCorrelations`
(ai.ts lines 123-126): the SIGNED Pearson correlation of each feature
column against the target — `Math.abs` is not applied here. -/
def correlationList (X : List (List ℚ)) (y : List ℚ) : List JNum :=
  (List.range (X.headD []).length).map fun i => pearsonCorrelation (column X i) y

/-- `calculateCorrelations` (ai.ts lines 119-132): the mean of the signed
correlations, and `Math.max(...correlations)` (a fold of `Math.max`
starting from `-Infinity`). -/
def calculateCorrelations (X : List (List ℚ)) (y : List ℚ) : CorrStats :=
  { mean := jdiv (jsum (correlationList X y)) (.fin (correlationList X y).length)
    maxc := (correlationList X y).foldl jmax .ninf }

/-- Row-major flattening of the matrix product `A · Bᵀ` (`A.dot(B.transpose())
.array().flat()`); all rows of `A` and `B` have the width of the feature
list, so the dot product is a zip. -/
def gramFlat (A B : List (List ℚ)) : List ℚ :=
  (A.map fun ra => B.map fun rb => (List.zipWith (· * ·) ra rb).sum).flatten

/-- `checkNonLinearity` (ai.ts lines 134-143): Pearson correlation of the
flattened raw and squared feature-gram matrices against the target, and
the absolute difference of the two. -/
def checkNonLinearity (X : List (List ℚ)) (y : List ℚ) : JNum :=
  let linear := gramFlat X X
  let squared := gramFlat (X.map (List.map fun v => v ^ 2)) X
  jabs (jsub (pearsonCorrelation squared y) (pearsonCorrelation linear y))

/-- `calculateFeatureImportance` (ai.ts lines 145-152): absolute Pearson
correlation of each feature column against the target. -/
def calculateFeatureImportance (X : List (List ℚ)) (y : List ℚ) : List JNum :=
  (List.range (X.headD []).length).map fun i => jabs (pearsonCorrelation (column X i) y)

/-- The fields of `AIModelSuggestion` that carry engine-computed data.
`reasoning` is the fixed per-branch string; `suggestedFeatures` (the
importance-sorted top 5) is not modelled because `Array.prototype.sort`
with a comparator returning NaN has implementation-defined order — the
importance values themselves are carried instead; the hyperparameter bag
is untouched by every claim. -/
structure AIModelSuggestion where
  modelType : String
  confidence : ℚ
  reasoning : String
  featureImportance : List JNum
deriving DecidableEq, Repr

/-- The first branch condition of the decision logic (ai.ts line 40):
`nonLinearity < 0.3 && correlations.mean > 0.7`. -/
def advisorBranch1 (nl mc : JNum) : Bool :=
  jlt nl (.fin (3 / 10)) && jgt mc (.fin (7 / 10))

/-- The second branch condition (ai.ts line 44):
`complexity > 5 || nonLinearity > 0.7`. -/
def advisorBranch2 (complexity : ℕ) (nl : JNum) : Bool :=
  decide (5 < complexity) || jgt nl (.fin (7 / 10))

/-- `getModelSuggestions` (ai.ts lines 13-72).  With `data = []`,
`tf.tensor2d(X)` throws (a flat empty array needs an explicit shape), so
the call rejects; otherwise the decision logic is a pure first-match-wins
dispatch on the computed statistics. -/
def getModelSuggestions (data : List Row) (features : List String) (target : String) :
    Except JsErr AIModelSuggestion :=
  match data with
  | [] => .error .typeError
  | _ :: _ =>
      let X := extractX data features
      let y := extractY data target
      let correlations := calculateCorrelations X y
      let nonLinearity := checkNonLinearity X y
      let complexity := features.length
      if advisorBranch1 nonLinearity correlations.mean then
        .ok { modelType := "linear-regression", confidence := 8 / 10
              reasoning := "Strong linear correlations detected with low non-linearity"
              featureImportance := calculateFeatureImportance X y }
      else if advisorBranch2 complexity nonLinearity then
        .ok { modelType := "neural-network", confidence := 75 / 100
              reasoning := "Complex relationships detected, suggesting deep learning approach"
              featureImportance := calculateFeatureImportance X y }
      else
        .ok { modelType := "random-forest", confidence := 85 / 100
              reasoning := "Moderate complexity with potential non-linear relationships"
              featureImportance := calculateFeatureImportance X y }

/-!
## Exact-arithmetic views of the metric sums

These definitions restate, in plain rational arithmetic, the sums the
metrics calculator produces when all predictions are finite; they are the
vocabulary of the theorems below, with `calculateMetrics` itself the
object of proof.
-/

/-- `SS_residual = Σ (actualᵢ - predictedᵢ)²` over the indices of `actual`. -/
def qSsRes (a p : List ℚ) : ℚ :=
  ((List.range a.length).map fun i => (a.getD i 0 - p.getD i 0) ^ 2).sum

/-- `SS_total = Σ (actualᵢ - mean actual)²`. -/
def qSsTot (a : List ℚ) : ℚ := (a.map fun v => (v - qmean a) ^ 2).sum

/-- `Σ |actualᵢ - predictedᵢ|` over the indices of `actual`. -/
def qAbsErr (a p : List ℚ) : ℚ :=
  ((List.range a.length).map fun i => |a.getD i 0 - p.getD i 0|).sum

-- ## Further evaluation lemmas

theorem jabs_fin (a : ℚ) : jabs (.fin a) = .fin |a| := rfl

theorem jmax_fin (a b : ℚ) : jmax (.fin a) (.fin b) = .fin (max a b) := by
  by_cases h : a < b
  · simp [jmax, jlt, h, max_eq_right h.le]
  · simp [jmax, jlt, h, max_eq_left (not_lt.mp h)]

theorem jmin_fin (a b : ℚ) : jmin (.fin a) (.fin b) = .fin (min a b) := by
  by_cases h : a < b
  · simp [jmin, jlt, h, min_eq_left h.le]
  · simp [jmin, jlt, h, min_eq_right (not_lt.mp h)]

theorem jsub_nan_right (a : JNum) : jsub a .nan = .nan := by
  simp [jsub, jneg, jadd_nan_right]

theorem jget_map_fin (p : List ℚ) (i : ℕ) (h : i < p.length) :
    jget (p.map .fin) i = .fin (p.getD i 0) := by
  have h' : i < (p.map JNum.fin).length := by simpa using h
  rw [jget, List.getD_eq_getElem _ _ h', List.getElem_map, List.getD_eq_getElem _ _ h]

theorem natSqrt_four : Nat.sqrt 4 = 2 := by
  rw [show (4 : ℕ) = 2 * 2 from rfl]
  exact Nat.sqrt_eq 2

theorem ratSqrt_zero : ratSqrt 0 = 0 := by
  norm_num [ratSqrt]

theorem ratSqrt_four : ratSqrt 4 = 2 := by
  have h4 : ((4 : ℚ).num.toNat) = 4 := rfl
  have hd : ((4 : ℚ).den) = 1 := rfl
  rw [ratSqrt, h4, hd, natSqrt_four, Nat.sqrt_one]
  norm_num

theorem jsqrt_fin_zero : jsqrt (.fin 0) = .fin 0 := by
  simp [jsqrt, ratSqrt_zero]

/-- Evaluation of `calculateMetrics` when every prediction is a finite
value and the actuals are non-empty: the four metrics in terms of the
exact sums of squares. -/
theorem calculateMetrics_fin (a p : List ℚ) (hlen : p.length = a.length) (hne : a ≠ []) :
    calculateMetrics a (p.map .fin) =
      { mse := .fin (qSsRes a p / a.length)
        rmse := jsqrt (.fin (qSsRes a p / a.length))
        r2 := jmax (.fin 0) (jmin (.fin 1)
          (jsub (.fin 1) (jdiv (.fin (qSsRes a p)) (.fin (qSsTot a)))))
        mae := .fin (qAbsErr a p / a.length) } := by
  have hn : ((a.length : ℚ)) ≠ 0 :=
    Nat.cast_ne_zero.mpr (List.length_pos.mpr hne).ne'
  have hsq : jsum ((List.range a.length).map fun i =>
      jpow2 (jsub (.fin (a.getD i 0)) (jget (p.map .fin) i))) = .fin (qSsRes a p) := by
    rw [show ((List.range a.length).map fun i =>
        jpow2 (jsub (.fin (a.getD i 0)) (jget (p.map .fin) i)))
        = ((List.range a.length).map fun i => ((a.getD i 0 - p.getD i 0) ^ 2)).map .fin by
      rw [List.map_map]
      refine List.map_congr_left fun i hi => ?_
      have hi' : i < p.length := hlen ▸ List.mem_range.mp hi
      simp [jget_map_fin p i hi', jsub_fin, jpow2_fin]]
    rw [jsum_map_fin, qSsRes]
  have habs : jsum ((List.range a.length).map fun i =>
      jabs (jsub (.fin (a.getD i 0)) (jget (p.map .fin) i))) = .fin (qAbsErr a p) := by
    rw [show ((List.range a.length).map fun i =>
        jabs (jsub (.fin (a.getD i 0)) (jget (p.map .fin) i)))
        = ((List.range a.length).map fun i => |a.getD i 0 - p.getD i 0|).map .fin by
      rw [List.map_map]
      refine List.map_congr_left fun i hi => ?_
      have hi' : i < p.length := hlen ▸ List.mem_range.mp hi
      simp [jget_map_fin p i hi', jsub_fin, jabs_fin]]
    rw [jsum_map_fin, qAbsErr]
  have hmean : jdiv (.fin a.sum) (.fin a.length) = .fin (qmean a) := by
    rw [jdiv_fin_of_ne _ _ hn, qmean]
  have htot : jsum (a.map fun v => jpow2 (jsub (.fin v) (.fin (qmean a)))) =
      .fin (qSsTot a) := by
    rw [show (a.map fun v => jpow2 (jsub (.fin v) (.fin (qmean a))))
        = (a.map fun v => (v - qmean a) ^ 2).map .fin by
      rw [List.map_map]
      exact List.map_congr_left fun v _ => by simp [jsub_fin, jpow2_fin]]
    rw [jsum_map_fin, qSsTot]
  simp only [calculateMetrics, hsq, habs, hmean, htot, jdiv_fin_of_ne _ _ hn]

-- ## Supporting facts for the r² case analysis

theorem qSsRes_nonneg (a p : List ℚ) : 0 ≤ qSsRes a p :=
  List.sum_nonneg fun x hx => by
    obtain ⟨i, _, rfl⟩ := List.mem_map.mp hx
    exact sq_nonneg _

theorem qSsRes_self (a : List ℚ) : qSsRes a a = 0 :=
  List.sum_eq_zero fun x hx => by
    obtain ⟨i, _, rfl⟩ := List.mem_map.mp hx
    simp

theorem qAbsErr_self (a : List ℚ) : qAbsErr a a = 0 :=
  List.sum_eq_zero fun x hx => by
    obtain ⟨i, _, rfl⟩ := List.mem_map.mp hx
    simp

theorem jsub_fin_pinf (a : ℚ) : jsub (.fin a) .pinf = .ninf := rfl

theorem jmin_one_ninf : jmin (.fin 1) .ninf = .ninf := by simp [jmin, jlt]

theorem jmax_zero_ninf : jmax (.fin 0) .ninf = .fin 0 := by simp [jmax, jlt]

theorem jmin_nan_right (a : JNum) : jmin a .nan = .nan := by simp [jmin]

theorem jmax_nan_right (a : JNum) : jmax a .nan = .nan := by simp [jmax]

/-- C3: the claim's reading of the clamp.  The code's `r2` when all
predictions are finite: in `[0,1]` whenever `SS_total ≠ 0`; for
`SS_total = 0` the "degenerate clamp to 0" only happens when
`SS_residual ≠ 0` (via `1 - ∞ = -∞`); when `SS_residual = 0` as well,
`1 - 0/0` is NaN and `Math.max(0, Math.min(1, NaN))` stays NaN. -/
theorem r2_clamp_cases (a p : List ℚ) (hlen : p.length = a.length) (hne : a ≠ []) :
    (qSsTot a ≠ 0 → ∃ q : ℚ,
      (calculateMetrics a (p.map .fin)).r2 = .fin q ∧ 0 ≤ q ∧ q ≤ 1)
    ∧ (qSsTot a = 0 → qSsRes a p ≠ 0 →
      (calculateMetrics a (p.map .fin)).r2 = .fin 0)
    ∧ (qSsTot a = 0 → qSsRes a p = 0 →
      (calculateMetrics a (p.map .fin)).r2 = .nan) := by
  rw [calculateMetrics_fin a p hlen hne]
  refine ⟨fun htot => ?_, fun htot hres => ?_, fun htot hres => ?_⟩
  · rw [jdiv_fin_of_ne _ _ htot, jsub_fin, jmin_fin, jmax_fin]
    exact ⟨_, rfl, le_max_left 0 _, max_le (by norm_num) (min_le_left _ _)⟩
  · have hpos : 0 < qSsRes a p := lt_of_le_of_ne (qSsRes_nonneg a p) (Ne.symm hres)
    rw [htot, jdiv_fin_zero_of_pos _ hpos, jsub_fin_pinf, jmin_one_ninf, jmax_zero_ninf]
  · rw [htot, hres, jdiv_zero_zero, jsub_nan_right, jmin_nan_right, jmax_nan_right]

/-- C3 counterexample to the claim as stated: actuals `[5,5]` with
predictions `[5,5]` give `SS_total = 0` but `r2 = NaN`, not the claimed
degenerate clamp `0` (and NaN lies in no interval). -/
theorem r2_clamp_cex :
    (calculateMetrics [5, 5] [.fin 5, .fin 5]).r2 = .nan
    ∧ (calculateMetrics [5, 5] [.fin 5, .fin 5]).r2 ≠ .fin 0
    ∧ qSsTot [5, 5] = 0 := by
  have h : calculateMetrics [5, 5] [.fin 5, .fin 5] =
      { mse := .fin 0, rmse := .fin 0, r2 := .nan, mae := .fin 0 } := by
    simp [calculateMetrics, jget, List.range_succ]
    norm_num [jdiv, jsub, jadd, jneg, jmul, jsum, jsqrt, jpow2, jabs, jmax, jmin, jlt,
      List.foldl, ratSqrt]
  refine ⟨by rw [h], by rw [h]; simp, ?_⟩
  norm_num [qSsTot, qmean]

/-- C3 witness: the amended case analysis applied at actuals `[1,2]`,
predictions `[1,1]`. -/
theorem r2_clamp_cases_witness :
    (qSsTot [1, 2] ≠ 0 → ∃ q : ℚ,
      (calculateMetrics [1, 2] ([1, 1].map .fin)).r2 = .fin q ∧ 0 ≤ q ∧ q ≤ 1)
    ∧ (qSsTot [1, 2] = 0 → qSsRes [1, 2] [1, 1] ≠ 0 →
      (calculateMetrics [1, 2] ([1, 1].map .fin)).r2 = .fin 0)
    ∧ (qSsTot [1, 2] = 0 → qSsRes [1, 2] [1, 1] = 0 →
      (calculateMetrics [1, 2] ([1, 1].map .fin)).r2 = .nan) :=
  r2_clamp_cases [1, 2] [1, 1] rfl (by simp)

/-- C4: metrics for a perfect fit.  With non-empty finite actuals equal to
the predictions, `mse`, `rmse` and `mae` are exactly `0`; `r2 = 1` exactly
when the actuals are not all identical (`SS_total ≠ 0`), and `r2 = NaN`
when they are. -/
theorem perfect_predictions_metrics (a : List ℚ) (hne : a ≠ []) :
    (calculateMetrics a (a.map .fin)).mse = .fin 0
    ∧ (calculateMetrics a (a.map .fin)).rmse = .fin 0
    ∧ (calculateMetrics a (a.map .fin)).mae = .fin 0
    ∧ (qSsTot a ≠ 0 → (calculateMetrics a (a.map .fin)).r2 = .fin 1)
    ∧ (qSsTot a = 0 → (calculateMetrics a (a.map .fin)).r2 = .nan) := by
  rw [calculateMetrics_fin a a rfl hne]
  refine ⟨?_, ?_, ?_, fun htot => ?_, fun htot => ?_⟩
  · rw [qSsRes_self, zero_div]
  · rw [qSsRes_self, zero_div, jsqrt_fin_zero]
  · rw [qAbsErr_self, zero_div]
  · rw [qSsRes_self, jdiv_fin_of_ne _ _ htot]
    simp only [zero_div]
    rw [jsub_fin, jmin_fin, jmax_fin]
    show JNum.fin (max 0 (min 1 (1 - 0))) = .fin 1
    norm_num
  · rw [qSsRes_self, htot, jdiv_zero_zero, jsub_nan_right, jmin_nan_right, jmax_nan_right]

/-- C4 counterexample to the claim as stated: on the constant test slice
`[3,3]` with predictions exactly equal to the actuals, `r2` is NaN, not
the claimed `1` (mse, rmse and mae are still 0). -/
theorem perfect_predictions_cex :
    (calculateMetrics [3, 3] [.fin 3, .fin 3]).r2 = .nan
    ∧ (calculateMetrics [3, 3] [.fin 3, .fin 3]).r2 ≠ .fin 1
    ∧ (calculateMetrics [3, 3] [.fin 3, .fin 3]).mse = .fin 0 := by
  have h : calculateMetrics [3, 3] [.fin 3, .fin 3] =
      { mse := .fin 0, rmse := .fin 0, r2 := .nan, mae := .fin 0 } := by
    simp [calculateMetrics, jget, List.range_succ]
    norm_num [jdiv, jsub, jadd, jneg, jmul, jsum, jsqrt, jpow2, jabs, jmax, jmin, jlt,
      List.foldl, ratSqrt]
  exact ⟨by rw [h], by rw [h]; simp, by rw [h]⟩

/-- C4 witness: the perfect-fit metric evaluation applied at `[1, 2]`. -/
theorem perfect_predictions_metrics_witness :
    (calculateMetrics [1, 2] ([1, 2].map .fin)).mse = .fin 0
    ∧ (calculateMetrics [1, 2] ([1, 2].map .fin)).rmse = .fin 0
    ∧ (calculateMetrics [1, 2] ([1, 2].map .fin)).mae = .fin 0
    ∧ (qSsTot [1, 2] ≠ 0 → (calculateMetrics [1, 2] ([1, 2].map .fin)).r2 = .fin 1)
    ∧ (qSsTot [1, 2] = 0 → (calculateMetrics [1, 2] ([1, 2].map .fin)).r2 = .nan) :=
  perfect_predictions_metrics [1, 2] (by simp)

-- ## Behaviour of trainModel on degenerate inputs (C1, C2, C9, C7)

theorem jdiv_nan_left (b : JNum) : jdiv .nan b = .nan := by cases b <;> rfl

theorem jpow2_nan : jpow2 .nan = .nan := rfl

/-- With an empty prediction array and non-empty actuals, every indexed
read is `undefined` and the MSE is NaN. -/
theorem calculateMetrics_empty_preds_mse (a : List ℚ) (hne : a ≠ []) :
    (calculateMetrics a []).mse = .nan := by
  have hmem : JNum.nan ∈ (List.range a.length).map
      (fun i => jpow2 (jsub (.fin (a.getD i 0)) (jget [] i))) := by
    refine List.mem_map.mpr ⟨0, List.mem_range.mpr (List.length_pos.mpr hne), ?_⟩
    rw [show jget [] 0 = .nan from rfl, jsub_nan_right, jpow2_nan]
  show jdiv (jsum ((List.range a.length).map
      (fun i => jpow2 (jsub (.fin (a.getD i 0)) (jget [] i))))) (.fin a.length) = .nan
  rw [jsum_eq_nan_of_mem _ hmem, jdiv_nan_left]

/-- The metrics of an empty test split: every mean is `0/0`, hence all
four metrics are NaN. -/
theorem calculateMetrics_nil : calculateMetrics [] [] =
    { mse := .nan, rmse := .nan, r2 := .nan, mae := .nan } := by
  show ({ mse := jdiv (jsum []) (.fin (0 : ℕ))
          rmse := jsqrt (jdiv (jsum []) (.fin (0 : ℕ)))
          r2 := jmax (.fin 0) (jmin (.fin 1) (jsub (.fin 1)
            (jdiv (jsum []) (jsum []))))
          mae := jdiv (jsum []) (.fin (0 : ℕ)) } : ModelMetrics) = _
  rw [jsum_nil]
  norm_num [jdiv, jsqrt, jsub, jneg, jadd, jmin, jmax]

/-- C1: `trainModel` on empty `rows` does not fail with a `ValidationError`
(no such error exists in the code): it crashes with a `TypeError` thrown
from `X[0].map(...)`, whatever the other arguments are.  (In particular it
never yields a `TrainingResult` for empty rows — but by crashing, not by
validating.) -/
theorem trainModel_empty_rows (rf nn : List (List ℚ) → List ℚ → List (List ℚ) → List JNum)
    (target : String) (features : List String) (modelType : String) (ratio : ℚ) :
    trainModel rf nn [] target features modelType ratio = .error .typeError := rfl

/-- C2: an unrecognized `modelType` tag does not fail with a
`ConfigurationError`: the `switch` has no default case, so `predictions`
stays `[]` and a `TrainingResult` is resolved, whose MSE is NaN whenever
the test split is non-empty. -/
theorem trainModel_unknown_tag
    (rf nn : List (List ℚ) → List ℚ → List (List ℚ) → List JNum)
    (data : List Row) (target : String) (features : List String)
    (modelType : String) (ratio : ℚ) (hne : data ≠ [])
    (h1 : modelType ≠ "linear-regression") (h2 : modelType ≠ "random-forest")
    (h3 : modelType ≠ "neural-network") :
    ∃ res, trainModel rf nn data target features modelType ratio = .ok res
      ∧ res.predictions = []
      ∧ (testActuals data target ratio ≠ [] → res.metrics.mse = .nan) := by
  have hpred : predictionsOf rf nn data target features modelType ratio = [] := by
    rw [predictionsOf]
    simp [h1, h2, h3]
  cases data with
  | nil => exact absurd rfl hne
  | cons d ds =>
      refine ⟨_, rfl, ?_, ?_⟩
      · show predictionsOf rf nn (d :: ds) target features modelType ratio = []
        exact hpred
      · intro hta
        show (calculateMetrics (testActuals (d :: ds) target ratio)
          (predictionsOf rf nn (d :: ds) target features modelType ratio)).mse = .nan
        rw [hpred]
        exact calculateMetrics_empty_preds_mse _ hta

/-- C2 witness: `modelType = "svm"` on a two-row dataset. -/
theorem trainModel_unknown_tag_witness :
    ∃ res, trainModel (fun _ _ _ => []) (fun _ _ _ => [])
        [fun _ => some 1, fun _ => some 2] "y" ["x"] "svm" (8 / 10) = .ok res
      ∧ res.predictions = []
      ∧ (testActuals [fun _ => some 1, fun _ => some 2] "y" (8 / 10) ≠ [] →
          res.metrics.mse = .nan) :=
  trainModel_unknown_tag _ _ _ _ _ _ _ (by simp)
    (by simp) (by simp) (by simp)

theorem splitIdxOf_one (n : ℕ) : splitIdxOf n 1 = n := by
  simp [splitIdxOf]

/-- C9: with `splitRatio = 1` the test partition is empty and `trainModel`
(linear backend) resolves with a `TrainingResult` whose four metrics are
all NaN and whose predictions and actuals are empty — no error is
raised. -/
theorem trainModel_ratio_one (rf nn : List (List ℚ) → List ℚ → List (List ℚ) → List JNum)
    (data : List Row) (target : String) (features : List String) (hne : data ≠ []) :
    trainModel rf nn data target features "linear-regression" 1 =
      .ok { modelType := "linear-regression"
            metrics := { mse := .nan, rmse := .nan, r2 := .nan, mae := .nan }
            predictions := []
            actualValues := [] } := by
  have hta : testActuals data target 1 = [] := by
    rw [testActuals, splitIdxOf_one]
    rw [show data.length = (extractY data target).length by simp [extractY]]
    exact List.drop_length _
  have hXn : (normalizeX (extractX data features)).length = data.length := by
    simp [normalizeX, extractX]
  have hpred : predictionsOf rf nn data target features "linear-regression" 1 = [] := by
    rw [predictionsOf]
    simp only [if_pos rfl, splitIdxOf_one]
    rw [← hXn, List.drop_length]
    rfl
  cases data with
  | nil => exact absurd rfl hne
  | cons d ds =>
      show Except.ok _ = _
      rw [hta, hpred, calculateMetrics_nil]

/-- C9 witness: a one-row dataset trained with ratio 1. -/
theorem trainModel_ratio_one_witness :
    trainModel (fun _ _ _ => []) (fun _ _ _ => [])
        [fun _ => some 3] "y" ["x"] "linear-regression" 1 =
      .ok { modelType := "linear-regression"
            metrics := { mse := .nan, rmse := .nan, r2 := .nan, mae := .nan }
            predictions := []
            actualValues := [] } :=
  trainModel_ratio_one _ _ _ _ _ (by simp)

/-- C7: the split is positional.  For a non-empty dataset and a
non-negative ratio (the `TrainingConfig` range), `trainModel` resolves,
its `actualValues` are exactly the target values of the rows from
`splitIndex = floor(rowCount * splitRatio)` on, in original (raw,
unnormalized) units, and together with the first `splitIndex` target
values they partition the whole target column in order. -/
theorem trainModel_position_split
    (rf nn : List (List ℚ) → List ℚ → List (List ℚ) → List JNum)
    (data : List Row) (target : String) (features : List String)
    (modelType : String) (ratio : ℚ) (hne : data ≠ []) (hr : 0 ≤ ratio) :
    ∃ res, trainModel rf nn data target features modelType ratio = .ok res
      ∧ res.actualValues = (extractY data target).drop (splitIdxOf data.length ratio)
      ∧ splitIdxOf data.length ratio = (⌊(data.length : ℚ) * ratio⌋).toNat
      ∧ (extractY data target).take (splitIdxOf data.length ratio) ++ res.actualValues
          = extractY data target := by
  cases data with
  | nil => exact absurd rfl hne
  | cons d ds =>
      refine ⟨_, rfl, rfl, rfl, ?_⟩
      show (extractY (d :: ds) target).take (splitIdxOf (d :: ds).length ratio) ++
        testActuals (d :: ds) target ratio = extractY (d :: ds) target
      rw [testActuals]
      exact List.take_append_drop _ _

/-- C7 witness: three rows at ratio `1/2` (split index 1). -/
theorem trainModel_position_split_witness :
    ∃ res, trainModel (fun _ _ _ => []) (fun _ _ _ => [])
        [fun _ => some 1, fun _ => some 2, fun _ => some 3] "y" ["x"] "foo" (1 / 2) = .ok res
      ∧ res.actualValues = (extractY [fun _ => some 1, fun _ => some 2, fun _ => some 3]
          "y").drop (splitIdxOf 3 (1 / 2))
      ∧ splitIdxOf 3 (1 / 2) = (⌊((3 : ℕ) : ℚ) * (1 / 2)⌋).toNat
      ∧ (extractY [fun _ => some 1, fun _ => some 2, fun _ => some 3] "y").take
          (splitIdxOf 3 (1 / 2)) ++ res.actualValues
          = extractY [fun _ => some 1, fun _ => some 2, fun _ => some 3] "y" :=
  trainModel_position_split _ _ _ _ _ _ _ (by simp) (by norm_num)

-- ## The linear branch consumes only the first feature column (C6)

/-- Evaluation of the `linear-regression` arm of the dispatch. -/
theorem predictionsOf_linear
    (rf nn : List (List ℚ) → List ℚ → List (List ℚ) → List JNum)
    (data : List Row) (target : String) (features : List String) (ratio : ℚ) :
    predictionsOf rf nn data target features "linear-regression" ratio
      = ((normalizeX (extractX data features)).drop (splitIdxOf data.length ratio)).map
          (fun x => denorm (yStdOf data target) (yMeanOf data target)
            (slrPredict (slrFit
              (((normalizeX (extractX data features)).take
                (splitIdxOf data.length ratio)).map jheadQ)
              (((ynOf data target).take (splitIdxOf data.length ratio)).map .fin))
              (jheadQ x))) := by
  rw [predictionsOf]
  rfl

theorem column_zero (data : List Row) (f0 : String) (rest : List String) :
    column (extractX data (f0 :: rest)) 0 = extractY data f0 := by
  simp only [column, extractX, extractY, List.map_map]
  exact List.map_congr_left fun r _ => rfl

theorem xMeans_cons_getD_zero (d : Row) (ds : List Row) (f0 : String) (rest : List String) :
    (xMeans (extractX (d :: ds) (f0 :: rest))).getD 0 0
      = qmean (extractY (d :: ds) f0) := by
  rw [xMeans, show ((extractX (d :: ds) (f0 :: rest)).headD []).length
    = rest.length + 1 by simp [extractX], List.range_succ_eq_map]
  simp [column_zero]

theorem xStds_cons_getD_zero (d : Row) (ds : List Row) (f0 : String) (rest : List String) :
    (xStds (extractX (d :: ds) (f0 :: rest))).getD 0 0
      = qstd (extractY (d :: ds) f0) := by
  rw [xStds, show ((extractX (d :: ds) (f0 :: rest)).headD []).length
    = rest.length + 1 by simp [extractX], List.range_succ_eq_map]
  simp [column_zero]

theorem headNormRow (M S : List ℚ) (r : Row) (f0 : String) (rest : List String) :
    jheadQ ((List.range ((f0 :: rest).map (cellValue r)).length).map
      (fun i => (((f0 :: rest).map (cellValue r)).getD i 0 - M.getD i 0)
        / jsOr1 (S.getD i 0)))
      = .fin ((cellValue r f0 - M.getD 0 0) / jsOr1 (S.getD 0 0)) := by
  rw [show ((f0 :: rest).map (cellValue r)).length = rest.length + 1 by simp,
    List.range_succ_eq_map]
  rfl

/-- The heads of the normalized feature rows (the values the linear branch
consumes) are the z-scores of the FIRST feature column alone, guarded by
`|| 1`; the remaining feature names play no part. -/
theorem normHeads (d : Row) (ds : List Row) (f0 : String) (rest : List String) :
    (normalizeX (extractX (d :: ds) (f0 :: rest))).map jheadQ
      = (d :: ds).map fun r => JNum.fin
          ((cellValue r f0 - qmean (extractY (d :: ds) f0))
            / jsOr1 (qstd (extractY (d :: ds) f0))) := by
  rw [normalizeX, List.map_map]
  have hM := xMeans_cons_getD_zero d ds f0 rest
  have hS := xStds_cons_getD_zero d ds f0 rest
  rw [show extractX (d :: ds) (f0 :: rest)
    = (d :: ds).map (fun r => (f0 :: rest).map (cellValue r)) from rfl, List.map_map]
  refine List.map_congr_left fun r _ => ?_
  refine (headNormRow _ _ r f0 rest).trans ?_
  rw [show (List.map (fun r => List.map (cellValue r) (f0 :: rest)) (d :: ds))
    = extractX (d :: ds) (f0 :: rest) from rfl, hM, hS]

theorem map_head_branch_congr (F : JNum → JNum) (L M : List (List ℚ))
    (h : L.map jheadQ = M.map jheadQ) :
    L.map (fun x => F (jheadQ x)) = M.map (fun x => F (jheadQ x)) := by
  have key : ∀ N : List (List ℚ), N.map (fun x => F (jheadQ x)) = (N.map jheadQ).map F := by
    intro N
    rw [List.map_map]
    rfl
  rw [key, key, h]

/-- C6: the linear backend is blind to every feature after the first: two
training calls with the `linear-regression` tag that agree on the rows,
the target and the first feature name produce identical `TrainingResult`s,
whatever the remaining feature names (and the unused external backends)
are. -/
theorem linear_ignores_trailing_features
    (rf rf' nn nn' : List (List ℚ) → List ℚ → List (List ℚ) → List JNum)
    (data : List Row) (target f0 : String) (rest rest' : List String) (ratio : ℚ) :
    trainModel rf nn data target (f0 :: rest) "linear-regression" ratio
      = trainModel rf' nn' data target (f0 :: rest') "linear-regression" ratio := by
  cases data with
  | nil => rfl
  | cons d ds =>
      have hheads : (normalizeX (extractX (d :: ds) (f0 :: rest))).map jheadQ
          = (normalizeX (extractX (d :: ds) (f0 :: rest'))).map jheadQ := by
        rw [normHeads, normHeads]
      have htake : ((normalizeX (extractX (d :: ds) (f0 :: rest))).take
            (splitIdxOf (d :: ds).length ratio)).map jheadQ
          = ((normalizeX (extractX (d :: ds) (f0 :: rest'))).take
            (splitIdxOf (d :: ds).length ratio)).map jheadQ := by
        rw [List.map_take, List.map_take, hheads]
      have hdrop : ((normalizeX (extractX (d :: ds) (f0 :: rest))).drop
            (splitIdxOf (d :: ds).length ratio)).map jheadQ
          = ((normalizeX (extractX (d :: ds) (f0 :: rest'))).drop
            (splitIdxOf (d :: ds).length ratio)).map jheadQ := by
        rw [List.map_drop, List.map_drop, hheads]
      have hpred : predictionsOf rf nn (d :: ds) target (f0 :: rest)
            "linear-regression" ratio
          = predictionsOf rf' nn' (d :: ds) target (f0 :: rest')
            "linear-regression" ratio := by
        rw [predictionsOf_linear, predictionsOf_linear, htake]
        exact map_head_branch_congr
          (fun v => denorm (yStdOf (d :: ds) target) (yMeanOf (d :: ds) target)
            (slrPredict (slrFit
              (((normalizeX (extractX (d :: ds) (f0 :: rest'))).take
                (splitIdxOf (d :: ds).length ratio)).map jheadQ)
              (((ynOf (d :: ds) target).take
                (splitIdxOf (d :: ds).length ratio)).map .fin)) v))
          _ _ hdrop
      simp only [trainModel]
      rw [hpred]

-- ## Zero-variance columns normalize to zero without error (C8)

theorem qmean_const (xs : List ℚ) (c : ℚ) (hne : xs ≠ []) (hc : ∀ v ∈ xs, v = c) :
    qmean xs = c := by
  have hrep : xs = List.replicate xs.length c := List.eq_replicate_of_mem hc
  rw [qmean, show xs.sum = xs.length * c by
    conv_lhs => rw [hrep]
    rw [List.sum_replicate, nsmul_eq_mul]]
  have hn : ((xs.length : ℚ)) ≠ 0 := Nat.cast_ne_zero.mpr (List.length_pos.mpr hne).ne'
  field_simp

theorem qstd_const (xs : List ℚ) (c : ℚ) (hne : xs ≠ []) (hc : ∀ v ∈ xs, v = c) :
    qstd xs = 0 := by
  have hvar : qvariance xs = 0 := by
    rw [qvariance, show (xs.map fun v => (v - qmean xs) ^ 2) =
        xs.map fun _ => (0 : ℚ) from List.map_congr_left fun v hv => by
      rw [hc v hv, qmean_const xs c hne hc]; ring]
    simp
  rw [qstd, hvar, ratSqrt_zero]

/-- C8: a feature column holding the same value in every row, and a target
column holding the same value in every row, normalize without any division
error: the computed standard deviation is `0`, the `|| 1` guard turns the
divisor into `1`, and every normalized value of the column is `0`. -/
theorem constant_column_normalizes_to_zero
    (data : List Row) (features : List String) (target : String)
    (i : ℕ) (c cy : ℚ) (hne : data ≠ []) (hi : i < features.length) :
    ((∀ v ∈ column (extractX data features) i, v = c) →
        qstd (column (extractX data features) i) = 0
      ∧ jsOr1 ((xStds (extractX data features)).getD i 0) = 1
      ∧ ∀ row ∈ normalizeX (extractX data features), row.getD i 0 = 0)
    ∧ ((∀ r ∈ data, cellValue r target = cy) →
        qstd (extractY data target) = 0
      ∧ ∀ v ∈ ynOf data target, v = 0) := by
  constructor
  · intro hc
    have hcolne : column (extractX data features) i ≠ [] := by
      simp [column, extractX, hne]
    have hstd : qstd (column (extractX data features) i) = 0 :=
      qstd_const _ c hcolne hc
    have hmean : qmean (column (extractX data features) i) = c :=
      qmean_const _ c hcolne hc
    have hk : ((extractX data features).headD []).length = features.length := by
      cases data with
      | nil => exact absurd rfl hne
      | cons d ds => simp [extractX]
    have hgetstd : (xStds (extractX data features)).getD i 0
        = qstd (column (extractX data features) i) := by
      rw [xStds]
      rw [List.getD_eq_getElem _ _ (by
        rw [List.length_map, List.length_range, hk]; exact hi)]
      simp [hk]
    have hgetmean : (xMeans (extractX data features)).getD i 0
        = qmean (column (extractX data features) i) := by
      rw [xMeans]
      rw [List.getD_eq_getElem _ _ (by
        rw [List.length_map, List.length_range, hk]; exact hi)]
      simp [hk]
    refine ⟨hstd, by rw [hgetstd, hstd, jsOr1]; simp, ?_⟩
    intro row hrow
    obtain ⟨r, hr, rfl⟩ := List.mem_map.mp hrow
    have hrlen : r.length = features.length := by
      obtain ⟨r0, _, rfl⟩ := List.mem_map.mp hr
      simp
    rw [List.getD_eq_getElem _ _ (by simpa [hrlen] using hi)]
    simp only [List.getElem_map, List.getElem_range]
    have hrc : r.getD i 0 = c := hc _ (by
      exact List.mem_map.mpr ⟨r, hr, rfl⟩)
    rw [hrc, hgetmean, hmean, hgetstd, hstd, jsOr1]
    simp
  · intro hcy
    have hyne : extractY data target ≠ [] := by simp [extractY, hne]
    have hcy' : ∀ v ∈ extractY data target, v = cy := by
      intro v hv
      obtain ⟨r, hr, rfl⟩ := List.mem_map.mp hv
      exact hcy r hr
    have hstd : qstd (extractY data target) = 0 := qstd_const _ cy hyne hcy'
    have hmean : qmean (extractY data target) = cy := qmean_const _ cy hyne hcy'
    refine ⟨hstd, ?_⟩
    intro v hv
    obtain ⟨w, hw, rfl⟩ := List.mem_map.mp hv
    rw [show yStdOf data target = qstd (extractY data target) from rfl, hstd,
      show yMeanOf data target = qmean (extractY data target) from rfl, hmean,
      hcy' w hw, jsOr1]
    simp

-- ## Pearson correlation on a zero-variance column (C10)

theorem jadd_fin_zero_cases (acc b : JNum) (hacc : acc = .fin 0 ∨ acc = .nan)
    (hb : b = .fin 0 ∨ b = .nan) : jadd acc b = .fin 0 ∨ jadd acc b = .nan := by
  rcases hacc with h | h <;> rcases hb with h' | h' <;> subst h <;> subst h'
  · left; rw [jadd_fin, add_zero]
  · right; rfl
  · right; rfl
  · right; rfl

theorem foldl_jadd_zero_or_nan (l : List JNum) (acc : JNum)
    (hacc : acc = .fin 0 ∨ acc = .nan) (h : ∀ v ∈ l, v = .fin 0 ∨ v = .nan) :
    l.foldl jadd acc = .fin 0 ∨ l.foldl jadd acc = .nan := by
  induction l generalizing acc with
  | nil => exact hacc
  | cons b t ih =>
      exact ih _ (jadd_fin_zero_cases acc b hacc (h b (List.mem_cons_self b t)))
        fun v hv => h v (List.mem_cons_of_mem b hv)

theorem jsum_zero_or_nan (l : List JNum) (h : ∀ v ∈ l, v = .fin 0 ∨ v = .nan) :
    jsum l = .fin 0 ∨ jsum l = .nan :=
  foldl_jadd_zero_or_nan l _ (Or.inl rfl) h

theorem jmul_fin_zero_cases (w : JNum) :
    jmul (.fin 0) w = .fin 0 ∨ jmul (.fin 0) w = .nan := by
  cases w with
  | nan => right; rfl
  | pinf => right; simp [jmul]
  | ninf => right; simp [jmul]
  | fin b => left; rw [jmul_fin, zero_mul]

/-- The variance sum of `pearsonCorrelation` is always a finite value. -/
theorem pearson_var_fin (y : List ℚ) :
    ∃ v, jsum (y.map fun yi => jpow2 (jsub (.fin yi)
      (jdiv (.fin y.sum) (.fin y.length)))) = .fin v := by
  cases y with
  | nil => exact ⟨0, rfl⟩
  | cons b t =>
      have hn : (((b :: t).length : ℚ)) ≠ 0 :=
        Nat.cast_ne_zero.mpr (List.length_pos.mpr (by simp)).ne'
      rw [jdiv_fin_of_ne _ _ hn]
      rw [show ((b :: t).map fun yi => jpow2 (jsub (.fin yi)
          (.fin ((b :: t).sum / (b :: t).length))))
        = ((b :: t).map fun yi =>
            (yi - (b :: t).sum / (b :: t).length) ^ 2).map .fin by
        rw [List.map_map]
        exact List.map_congr_left fun v _ => by rw [Function.comp_apply, jsub_fin, jpow2_fin]]
      rw [jsum_map_fin]
      exact ⟨_, rfl⟩

/-- `pearsonCorrelation` has no zero-variance guard: a constant first
argument makes both the covariance and the variance sums collapse so the
result is the JS `0/0` (or `NaN/0`), i.e. NaN. -/
theorem pearson_const (x y : List ℚ) (c : ℚ) (hne : x ≠ []) (hc : ∀ v ∈ x, v = c) :
    pearsonCorrelation x y = .nan := by
  have hn : ((x.length : ℚ)) ≠ 0 := Nat.cast_ne_zero.mpr (List.length_pos.mpr hne).ne'
  have hsum : x.sum = x.length * c := by
    calc x.sum = (List.replicate x.length c).sum := by
          conv_lhs => rw [List.eq_replicate_of_mem hc]
      _ = x.length * c := by rw [List.sum_replicate, nsmul_eq_mul]
  have hmeanX : jdiv (.fin x.sum) (.fin x.length) = .fin c := by
    rw [jdiv_fin_of_ne _ _ hn, hsum, mul_div_cancel_left₀ _ hn]
  have hget : ∀ i ∈ List.range x.length, x.getD i 0 = c := by
    intro i hi
    have h : i < x.length := List.mem_range.mp hi
    rw [List.getD_eq_getElem _ _ h]
    exact hc _ (List.getElem_mem h)
  simp only [pearsonCorrelation]
  have hcov : jsum ((List.range x.length).map fun i =>
      jmul (jsub (.fin (x.getD i 0)) (jdiv (.fin x.sum) (.fin x.length)))
        (jsub (jgetQ y i) (jdiv (.fin y.sum) (.fin y.length))))
      = .fin 0 ∨ jsum ((List.range x.length).map fun i =>
      jmul (jsub (.fin (x.getD i 0)) (jdiv (.fin x.sum) (.fin x.length)))
        (jsub (jgetQ y i) (jdiv (.fin y.sum) (.fin y.length)))) = .nan := by
    apply jsum_zero_or_nan
    intro v hv
    obtain ⟨i, hi, rfl⟩ := List.mem_map.mp hv
    rw [hget i hi, hmeanX, jsub_fin, sub_self]
    exact jmul_fin_zero_cases _
  have hvarX : jsum (x.map fun xi => jpow2 (jsub (.fin xi)
      (jdiv (.fin x.sum) (.fin x.length)))) = .fin 0 := by
    rw [hmeanX]
    rw [show (x.map fun xi => jpow2 (jsub (.fin xi) (.fin c)))
        = (x.map fun _ => (0 : ℚ)).map .fin by
      rw [List.map_map]
      refine List.map_congr_left fun v hv => ?_
      rw [Function.comp_apply, hc v hv, jsub_fin, sub_self, jpow2_fin]
      norm_num]
    rw [jsum_map_fin]
    simp
  obtain ⟨vy, hvarY⟩ := pearson_var_fin y
  rw [hvarX, hvarY, jmul_fin, zero_mul, jsqrt_fin_zero]
  rcases hcov with h | h <;> rw [h]
  · exact jdiv_zero_zero
  · exact jdiv_nan_left _

theorem jmul_nan_right (w : JNum) : jmul w .nan = .nan := by cases w <;> rfl

theorem jmul_fin_zero_right_cases (w : JNum) :
    jmul w (.fin 0) = .fin 0 ∨ jmul w (.fin 0) = .nan := by
  cases w with
  | nan => right; rfl
  | pinf => right; simp [jmul]
  | ninf => right; simp [jmul]
  | fin a => left; rw [jmul_fin, mul_zero]

/-- A constant TARGET makes `pearsonCorrelation` NaN for every feature
column: each covariance term carries the factor `yᵢ - meanY = 0` (or is an
out-of-range NaN read), `varY = 0`, and the result is the JS `0/0` (or
`NaN/0`). -/
theorem pearson_const_target (x y : List ℚ) (c : ℚ) (hne : y ≠ [])
    (hc : ∀ v ∈ y, v = c) : pearsonCorrelation x y = .nan := by
  have hn : ((y.length : ℚ)) ≠ 0 := Nat.cast_ne_zero.mpr (List.length_pos.mpr hne).ne'
  have hsum : y.sum = y.length * c := by
    calc y.sum = (List.replicate y.length c).sum := by
          conv_lhs => rw [List.eq_replicate_of_mem hc]
      _ = y.length * c := by rw [List.sum_replicate, nsmul_eq_mul]
  have hmeanY : jdiv (.fin y.sum) (.fin y.length) = .fin c := by
    rw [jdiv_fin_of_ne _ _ hn, hsum, mul_div_cancel_left₀ _ hn]
  simp only [pearsonCorrelation]
  have hcov : jsum ((List.range x.length).map fun i =>
      jmul (jsub (.fin (x.getD i 0)) (jdiv (.fin x.sum) (.fin x.length)))
        (jsub (jgetQ y i) (jdiv (.fin y.sum) (.fin y.length))))
      = .fin 0 ∨ jsum ((List.range x.length).map fun i =>
      jmul (jsub (.fin (x.getD i 0)) (jdiv (.fin x.sum) (.fin x.length)))
        (jsub (jgetQ y i) (jdiv (.fin y.sum) (.fin y.length)))) = .nan := by
    apply jsum_zero_or_nan
    intro v hv
    obtain ⟨i, hi, rfl⟩ := List.mem_map.mp hv
    rw [hmeanY]
    by_cases hiy : i < y.length
    · have hg : jgetQ y i = .fin c := by
        rw [jgetQ, dif_pos hiy]
        exact congrArg JNum.fin (hc _ (y.get_mem _ _))
      rw [hg, jsub_fin, sub_self]
      exact jmul_fin_zero_right_cases _
    · have hg : jgetQ y i = .nan := by rw [jgetQ, dif_neg hiy]
      rw [hg, show jsub JNum.nan (.fin c) = .nan from rfl, jmul_nan_right]
      right
      rfl
  have hvarY : jsum (y.map fun yi => jpow2 (jsub (.fin yi)
      (jdiv (.fin y.sum) (.fin y.length)))) = .fin 0 := by
    rw [hmeanY]
    rw [show (y.map fun yi => jpow2 (jsub (.fin yi) (.fin c)))
        = (y.map fun _ => (0 : ℚ)).map .fin by
      rw [List.map_map]
      refine List.map_congr_left fun v hv => ?_
      rw [Function.comp_apply, hc v hv, jsub_fin, sub_self, jpow2_fin]
      norm_num]
    rw [jsum_map_fin]
    simp
  obtain ⟨vx, hvarX⟩ := pearson_var_fin x
  rw [hvarX, hvarY, jmul_fin, mul_zero, jsqrt_fin_zero]
  rcases hcov with h | h <;> rw [h]
  · exact jdiv_zero_zero
  · exact jdiv_nan_left _

/-- C10: a constant candidate-feature column yields a NaN Pearson
correlation (`0 / sqrt(0) = 0/0`), and that NaN poisons the advisor's
`meanCorrelation` and shows up unchanged in the feature-importance entry;
likewise a constant TARGET column makes EVERY per-feature correlation NaN,
hence the mean and every feature-importance value — no error is raised in
either case. -/
theorem zero_variance_pearson_nan (X : List (List ℚ)) (y : List ℚ) (i : ℕ) (c cy : ℚ)
    (hX : X ≠ []) (hi : i < (X.headD []).length) :
    ((∀ row ∈ X, row.getD i 0 = c) →
        pearsonCorrelation (column X i) y = .nan
      ∧ (calculateCorrelations X y).mean = .nan
      ∧ (calculateFeatureImportance X y).getD i .nan = .nan)
    ∧ (y ≠ [] → (∀ v ∈ y, v = cy) →
        (∀ j, pearsonCorrelation (column X j) y = .nan)
      ∧ (calculateCorrelations X y).mean = .nan
      ∧ ∀ w ∈ calculateFeatureImportance X y, w = .nan) := by
  constructor
  · intro hc
    have hcol : ∀ v ∈ column X i, v = c := by
      intro v hv
      obtain ⟨r, hr, rfl⟩ := List.mem_map.mp hv
      exact hc r hr
    have hcolne : column X i ≠ [] := by simp [column, hX]
    have hp : pearsonCorrelation (column X i) y = .nan := pearson_const _ y c hcolne hcol
    refine ⟨hp, ?_, ?_⟩
    · have hmem : JNum.nan ∈ correlationList X y := by
        refine List.mem_map.mpr ⟨i, List.mem_range.mpr hi, ?_⟩
        exact hp
      show jdiv (jsum (correlationList X y)) (.fin (correlationList X y).length) = .nan
      rw [jsum_eq_nan_of_mem _ hmem, jdiv_nan_left]
    · rw [calculateFeatureImportance,
        List.getD_eq_getElem _ _ (by simpa using hi)]
      simp only [List.getElem_map, List.getElem_range]
      rw [hp]
      rfl
  · intro hyne hcy
    have hpy : ∀ x : List ℚ, pearsonCorrelation x y = .nan := fun x =>
      pearson_const_target x y cy hyne hcy
    refine ⟨fun j => hpy _, ?_, ?_⟩
    · have hmem : JNum.nan ∈ correlationList X y :=
        List.mem_map.mpr ⟨i, List.mem_range.mpr hi, hpy _⟩
      show jdiv (jsum (correlationList X y)) (.fin (correlationList X y).length) = .nan
      rw [jsum_eq_nan_of_mem _ hmem, jdiv_nan_left]
    · intro w hw
      obtain ⟨j, hj, rfl⟩ := List.mem_map.mp hw
      rw [hpy _]
      rfl

/-- C10 witness: the constant feature column `[[2],[2]]` against the
constant target `[5,5]`, so both constancy antecedents are satisfiable. -/
theorem zero_variance_pearson_nan_witness :
    ((∀ row ∈ ([[2], [2]] : List (List ℚ)), row.getD 0 0 = 2) →
        pearsonCorrelation (column [[2], [2]] 0) [5, 5] = .nan
      ∧ (calculateCorrelations [[2], [2]] [5, 5]).mean = .nan
      ∧ (calculateFeatureImportance [[2], [2]] [5, 5]).getD 0 .nan = .nan)
    ∧ (([5, 5] : List ℚ) ≠ [] → (∀ v ∈ ([5, 5] : List ℚ), v = 5) →
        (∀ j, pearsonCorrelation (column [[2], [2]] j) [5, 5] = .nan)
      ∧ (calculateCorrelations [[2], [2]] [5, 5]).mean = .nan
      ∧ ∀ w ∈ calculateFeatureImportance [[2], [2]] [5, 5], w = .nan) :=
  zero_variance_pearson_nan [[2], [2]] [5, 5] 0 2 5 (by simp) (by simp)

-- ## The advisor's decision rule and its mean correlation (C5)

/-- C5 (amended): `getModelSuggestions` selects first-match-wins on the
computed statistics — `linear-regression` with confidence 0.8 when
`nonLinearity < 0.3` and `meanCorrelation > 0.7`, otherwise
`neural-network` with confidence 0.75 when `featureCount > 5` or
`nonLinearity > 0.7`, otherwise `random-forest` with confidence 0.85 —
where `meanCorrelation` is the plain average of the SIGNED per-feature
Pearson correlations (no absolute value is taken at this point). -/
theorem advisor_decision_rule (data : List Row) (features : List String) (target : String)
    (hne : data ≠ []) :
    ∃ s, getModelSuggestions data features target = .ok s
      ∧ (calculateCorrelations (extractX data features) (extractY data target)).mean
          = jdiv (jsum (correlationList (extractX data features) (extractY data target)))
              (.fin (correlationList (extractX data features) (extractY data target)).length)
      ∧ (advisorBranch1 (checkNonLinearity (extractX data features) (extractY data target))
            (calculateCorrelations (extractX data features) (extractY data target)).mean = true →
          s.modelType = "linear-regression" ∧ s.confidence = 8 / 10)
      ∧ (advisorBranch1 (checkNonLinearity (extractX data features) (extractY data target))
            (calculateCorrelations (extractX data features) (extractY data target)).mean = false →
          advisorBranch2 features.length
            (checkNonLinearity (extractX data features) (extractY data target)) = true →
          s.modelType = "neural-network" ∧ s.confidence = 75 / 100)
      ∧ (advisorBranch1 (checkNonLinearity (extractX data features) (extractY data target))
            (calculateCorrelations (extractX data features) (extractY data target)).mean = false →
          advisorBranch2 features.length
            (checkNonLinearity (extractX data features) (extractY data target)) = false →
          s.modelType = "random-forest" ∧ s.confidence = 85 / 100) := by
  cases data with
  | nil => exact absurd rfl hne
  | cons d ds =>
      by_cases h1 : advisorBranch1
          (checkNonLinearity (extractX (d :: ds) features) (extractY (d :: ds) target))
          (calculateCorrelations (extractX (d :: ds) features)
            (extractY (d :: ds) target)).mean = true
      · refine ⟨{ modelType := "linear-regression"
                  confidence := 8 / 10
                  reasoning := "Strong linear correlations detected with low non-linearity"
                  featureImportance := calculateFeatureImportance
                    (extractX (d :: ds) features) (extractY (d :: ds) target) },
            ?_, rfl, ?_, ?_, ?_⟩
        · simp only [getModelSuggestions, h1, if_true]
        · intro _
          exact ⟨rfl, rfl⟩
        · intro hfalse _
          rw [h1] at hfalse
          cases hfalse
        · intro hfalse _
          rw [h1] at hfalse
          cases hfalse
      · rw [Bool.not_eq_true] at h1
        by_cases h2 : advisorBranch2 features.length
            (checkNonLinearity (extractX (d :: ds) features)
              (extractY (d :: ds) target)) = true
        · refine ⟨{ modelType := "neural-network"
                    confidence := 75 / 100
                    reasoning := "Complex relationships detected, suggesting deep learning approach"
                    featureImportance := calculateFeatureImportance
                      (extractX (d :: ds) features) (extractY (d :: ds) target) },
              ?_, rfl, ?_, ?_, ?_⟩
          · simp only [getModelSuggestions, h1, h2, if_true, Bool.false_eq_true, if_false]
          · intro htrue
            rw [h1] at htrue
            cases htrue
          · intro _ _
            exact ⟨rfl, rfl⟩
          · intro _ hfalse
            rw [h2] at hfalse
            cases hfalse
        · rw [Bool.not_eq_true] at h2
          refine ⟨{ modelType := "random-forest"
                    confidence := 85 / 100
                    reasoning := "Moderate complexity with potential non-linear relationships"
                    featureImportance := calculateFeatureImportance
                      (extractX (d :: ds) features) (extractY (d :: ds) target) },
              ?_, rfl, ?_, ?_, ?_⟩
          · simp only [getModelSuggestions, h1, h2, Bool.false_eq_true, if_false]
          · intro htrue
            rw [h1] at htrue
            cases htrue
          · intro _ htrue
            rw [h2] at htrue
            cases htrue
          · intro _ _
            exact ⟨rfl, rfl⟩

/-- C5 counterexample to the claim as stated: on the dataset with feature
columns `[1,2,3]` and `[3,2,1]` against target `[1,2,3]`, the per-feature
Pearson correlations are `+1` and `-1`; the advisor's `meanCorrelation` is
their SIGNED average `0`, not the average of absolute values `1` the claim
describes. -/
theorem advisor_mean_signed_cex :
    (calculateCorrelations [[1, 3], [2, 2], [3, 1]] [1, 2, 3]).mean = .fin 0
    ∧ pearsonCorrelation [1, 2, 3] [1, 2, 3] = .fin 1
    ∧ pearsonCorrelation [3, 2, 1] [1, 2, 3] = .fin (-1)
    ∧ jdiv (jadd (jabs (pearsonCorrelation [1, 2, 3] [1, 2, 3]))
        (jabs (pearsonCorrelation [3, 2, 1] [1, 2, 3]))) (.fin 2) = .fin 1
    ∧ (JNum.fin 0 : JNum) ≠ .fin 1 := by
  have h1 : pearsonCorrelation [1, 2, 3] [1, 2, 3] = .fin 1 := by
    simp only [pearsonCorrelation, jgetQ, List.range_succ]
    norm_num [jdiv, jsub, jadd, jneg, jmul, jsum, jsqrt, jpow2, List.foldl, ratSqrt_four]
  have h2 : pearsonCorrelation [3, 2, 1] [1, 2, 3] = .fin (-1) := by
    simp only [pearsonCorrelation, jgetQ, List.range_succ]
    norm_num [jdiv, jsub, jadd, jneg, jmul, jsum, jsqrt, jpow2, List.foldl, ratSqrt_four]
  have hmean : (calculateCorrelations [[1, 3], [2, 2], [3, 1]] [1, 2, 3]).mean = .fin 0 := by
    have hlist : correlationList [[1, 3], [2, 2], [3, 1]] [1, 2, 3]
        = [pearsonCorrelation [1, 2, 3] [1, 2, 3],
           pearsonCorrelation [3, 2, 1] [1, 2, 3]] := by
      simp only [correlationList, column, List.range_succ]
      norm_num
      rfl
    show jdiv (jsum (correlationList [[1, 3], [2, 2], [3, 1]] [1, 2, 3]))
      (.fin (correlationList [[1, 3], [2, 2], [3, 1]] [1, 2, 3]).length) = .fin 0
    rw [hlist, h1, h2]
    norm_num [jsum, jadd, jdiv, List.foldl]
  refine ⟨hmean, h1, h2, ?_, by simp⟩
  rw [h1, h2]
  norm_num [jabs, jadd, jdiv]

/-- C5 witness: the decision rule applied to a concrete two-row dataset. -/
theorem advisor_decision_rule_witness :
    ∃ s, getModelSuggestions [fun _ => some 1, fun _ => some 2] ["x"] "y" = .ok s
      ∧ (calculateCorrelations (extractX [fun _ => some 1, fun _ => some 2] ["x"])
            (extractY [fun _ => some 1, fun _ => some 2] "y")).mean
          = jdiv (jsum (correlationList
              (extractX [fun _ => some 1, fun _ => some 2] ["x"])
              (extractY [fun _ => some 1, fun _ => some 2] "y")))
              (.fin (correlationList
                (extractX [fun _ => some 1, fun _ => some 2] ["x"])
                (extractY [fun _ => some 1, fun _ => some 2] "y")).length)
      ∧ (advisorBranch1 (checkNonLinearity
            (extractX [fun _ => some 1, fun _ => some 2] ["x"])
            (extractY [fun _ => some 1, fun _ => some 2] "y"))
            (calculateCorrelations (extractX [fun _ => some 1, fun _ => some 2] ["x"])
              (extractY [fun _ => some 1, fun _ => some 2] "y")).mean = true →
          s.modelType = "linear-regression" ∧ s.confidence = 8 / 10)
      ∧ (advisorBranch1 (checkNonLinearity
            (extractX [fun _ => some 1, fun _ => some 2] ["x"])
            (extractY [fun _ => some 1, fun _ => some 2] "y"))
            (calculateCorrelations (extractX [fun _ => some 1, fun _ => some 2] ["x"])
              (extractY [fun _ => some 1, fun _ => some 2] "y")).mean = false →
          advisorBranch2 (["x"] : List String).length
            (checkNonLinearity (extractX [fun _ => some 1, fun _ => some 2] ["x"])
              (extractY [fun _ => some 1, fun _ => some 2] "y")) = true →
          s.modelType = "neural-network" ∧ s.confidence = 75 / 100)
      ∧ (advisorBranch1 (checkNonLinearity
            (extractX [fun _ => some 1, fun _ => some 2] ["x"])
            (extractY [fun _ => some 1, fun _ => some 2] "y"))
            (calculateCorrelations (extractX [fun _ => some 1, fun _ => some 2] ["x"])
              (extractY [fun _ => some 1, fun _ => some 2] "y")).mean = false →
          advisorBranch2 (["x"] : List String).length
            (checkNonLinearity (extractX [fun _ => some 1, fun _ => some 2] ["x"])
              (extractY [fun _ => some 1, fun _ => some 2] "y")) = false →
          s.modelType = "random-forest" ∧ s.confidence = 85 / 100) :=
  advisor_decision_rule [fun _ => some 1, fun _ => some 2] ["x"] "y" (by simp)

/-- C8 witness: two rows whose `"x"` cells are all `7` and whose `"y"`
cells are all `5`. -/
theorem constant_column_normalizes_to_zero_witness :
    ((∀ v ∈ column (extractX
        [fun s => if s = "x" then some 7 else some 5,
         fun s => if s = "x" then some 7 else some 5] ["x"]) 0, v = 7) →
      qstd (column (extractX
        [fun s => if s = "x" then some 7 else some 5,
         fun s => if s = "x" then some 7 else some 5] ["x"]) 0) = 0
      ∧ jsOr1 ((xStds (extractX
          [fun s => if s = "x" then some 7 else some 5,
           fun s => if s = "x" then some 7 else some 5] ["x"])).getD 0 0) = 1
      ∧ ∀ row ∈ normalizeX (extractX
          [fun s => if s = "x" then some 7 else some 5,
           fun s => if s = "x" then some 7 else some 5] ["x"]), row.getD 0 0 = 0)
    ∧ ((∀ r ∈ ([fun s => if s = "x" then some 7 else some 5,
           fun s => if s = "x" then some 7 else some 5] : List Row),
          cellValue r "y" = 5) →
      qstd (extractY
        [fun s => if s = "x" then some 7 else some 5,
         fun s => if s = "x" then some 7 else some 5] "y") = 0
      ∧ ∀ v ∈ ynOf
          [fun s => if s = "x" then some 7 else some 5,
           fun s => if s = "x" then some 7 else some 5] "y", v = 0) :=
  constant_column_normalizes_to_zero
    [fun s => if s = "x" then some 7 else some 5,
     fun s => if s = "x" then some 7 else some 5] ["x"] "y" 0 7 5
    (by simp) (by simp)
